import Mathlib

/-!
Shallow embedding of the Maetopia layer-state/history engine
(`src/hooks/useCanvas.ts`) and of the render synchronizer's
reconciliation pass (`CityCanvas.tsx`, `renderLayers`).

The React hook keeps its state in `useState` cells; all mutators run
synchronously to completion, so the hook is embedded as pure functions
threading a `CanvasState` record.  `Date.now()` timestamps are passed in
explicitly as a `now : Nat` argument.  The `onChange` / `handleLayerChange`
callbacks only notify external collaborators and never touch the state
modelled here, so they are dropped.  TypeScript numbers are modelled as
`Int`.
-/

namespace Maetopia

/-- 2-D position `{x, y}`. -/
structure Pos where
  x : Int
  y : Int
deriving DecidableEq

/-- `Layer` from `CityCanvas.tsx`: one placeable visual entity.
`rotation` is optional in the source (`rotation?: number`). -/
structure Layer where
  id : String
  type : String
  position : Pos
  scale : Int
  rotation : Option Int
  opacity : Int
  zIndex : Int
  locked : Bool
  visible : Bool
  version : Int
  texturePath : String
deriving DecidableEq

/-- `Omit<Layer, 'id'>`: the argument of `addLayer`. -/
structure LayerSpec where
  type : String
  position : Pos
  scale : Int
  rotation : Option Int
  opacity : Int
  zIndex : Int
  locked : Bool
  visible : Bool
  version : Int
  texturePath : String
deriving DecidableEq

/-- `{ ...newLayer, id }`: build a `Layer` from a spec and a fresh id. -/
def Layer.ofSpec (spec : LayerSpec) (id : String) : Layer :=
  { id := id
    type := spec.type
    position := spec.position
    scale := spec.scale
    rotation := spec.rotation
    opacity := spec.opacity
    zIndex := spec.zIndex
    locked := spec.locked
    visible := spec.visible
    version := spec.version
    texturePath := spec.texturePath }

/-- `Partial<Layer>`: every field optionally present.  A field that is
`none` is absent from the object, so a spread `{ ...layer, ...p }` keeps
the layer's value for it. -/
structure PartialLayer where
  id : Option String := none
  type : Option String := none
  position : Option Pos := none
  scale : Option Int := none
  rotation : Option Int := none
  opacity : Option Int := none
  zIndex : Option Int := none
  locked : Option Bool := none
  visible : Option Bool := none
  version : Option Int := none
  texturePath : Option String := none
deriving DecidableEq

/-- The JS spread `{ ...l, ...p }`: fields present in `p` win. -/
def mergeLayer (l : Layer) (p : PartialLayer) : Layer :=
  { id := p.id.getD l.id
    type := p.type.getD l.type
    position := p.position.getD l.position
    scale := p.scale.getD l.scale
    rotation := match p.rotation with
      | some r => some r
      | none => l.rotation
    opacity := p.opacity.getD l.opacity
    zIndex := p.zIndex.getD l.zIndex
    locked := p.locked.getD l.locked
    visible := p.visible.getD l.visible
    version := p.version.getD l.version
    texturePath := p.texturePath.getD l.texturePath }

/-- View a full layer as a `Partial<Layer>` (how `removeLayer`,
`updateLayer` and `addLayer` store snapshots in history entries). -/
def Layer.toPartial (l : Layer) : PartialLayer :=
  { id := some l.id
    type := some l.type
    position := some l.position
    scale := some l.scale
    rotation := l.rotation
    opacity := some l.opacity
    zIndex := some l.zIndex
    locked := some l.locked
    visible := some l.visible
    version := some l.version
    texturePath := some l.texturePath }

/-- The TS cast `partialObject as Layer`.  It only yields a well-formed
layer when every mandatory field is present (`rotation` is optional in
`Layer` itself and passes through).  Every snapshot the hook's own API
stores for the casting branches is complete, so the `none` case is
unreachable in API-generated histories. -/
def PartialLayer.asLayer (p : PartialLayer) : Option Layer :=
  match p.id, p.type, p.position, p.scale, p.opacity, p.zIndex,
        p.locked, p.visible, p.version, p.texturePath with
  | some id, some ty, some pos, some sc, some op, some z,
    some lk, some vis, some ver, some tp =>
      some { id := id, type := ty, position := pos, scale := sc,
             rotation := p.rotation, opacity := op, zIndex := z,
             locked := lk, visible := vis, version := ver, texturePath := tp }
  | _, _, _, _, _, _, _, _, _, _ => none

/-- The two shapes actually stored in a history entry's `before`/`after`
slot: a `Partial<Layer>` object, or the bulk `{ layers: Layer[] }` object
used by `reorderLayers` and `clearLayers`. -/
inductive Snapshot where
  | part (p : PartialLayer)
  | layers (ls : List Layer)
deriving DecidableEq

/-- Tag of a `HistoryAction`. -/
inductive ActionType where
  | add
  | remove
  | update
  | move
  | reorder
deriving DecidableEq

/-- `HistoryAction` from `useCanvas.ts`. -/
structure HistoryAction where
  type : ActionType
  layerId : Option String := none
  before : Option Snapshot := none
  after : Option Snapshot := none
  timestamp : Nat
deriving DecidableEq

/-- `Omit<HistoryAction, 'timestamp'>`: what mutators hand to
`addHistoryAction`, which stamps it with `Date.now()`. -/
structure PreAction where
  type : ActionType
  layerId : Option String := none
  before : Option Snapshot := none
  after : Option Snapshot := none
deriving DecidableEq

/-- `{ ...action, timestamp: Date.now() }`. -/
def HistoryAction.ofPre (pa : PreAction) (now : Nat) : HistoryAction :=
  { type := pa.type, layerId := pa.layerId, before := pa.before,
    after := pa.after, timestamp := now }

/-- Static map marker (`Point` in `CityCanvas.tsx`). -/
structure MapPoint where
  x : Int
  y : Int
  type : String
  name : Option String := none
deriving DecidableEq

/-- `MAX_HISTORY_SIZE`. -/
def maxHistorySize : Nat := 20

/-- The hook's state cells.  `isUndoRedoInProgress` is a ref that is set
and cleared inside the same synchronous `undo`/`redo` body; it is only
observable through reentrant callbacks, which are out of scope, so it is
always `false` at every operation boundary and carries no state here. -/
structure CanvasState where
  layers : List Layer
  selectedLayerId : Option String
  mapPoints : List MapPoint
  history : List HistoryAction
  historyIndex : Int
  isBatchingActions : Bool
deriving DecidableEq

/-- Initial hook state for a given `initialLayers`. -/
def initState (initialLayers : List Layer) : CanvasState :=
  { layers := initialLayers
    selectedLayerId := none
    mapPoints := []
    history := []
    historyIndex := -1
    isBatchingActions := false }

/-- JS array indexing `xs[i]` for a possibly negative index. -/
def getAt (xs : List HistoryAction) (i : Int) : Option HistoryAction :=
  if 0 ≤ i then xs[i.toNat]? else none

/-- `addHistoryAction`: truncate the redo tail at `historyIndex + 1`,
append the stamped action, evict from the front past `MAX_HISTORY_SIZE`,
and advance the cursor (capped at `MAX_HISTORY_SIZE - 1`).  No-op while
batching (the reentrancy ref is always clear here, see `CanvasState`). -/
def addHistoryAction (s : CanvasState) (pa : PreAction) (now : Nat) : CanvasState :=
  if s.isBatchingActions then s
  else
    let newHistory := s.history.take (s.historyIndex + 1).toNat
    let updatedHistory := newHistory ++ [HistoryAction.ofPre pa now]
    let limited :=
      if updatedHistory.length > maxHistorySize then
        updatedHistory.drop (updatedHistory.length - maxHistorySize)
      else updatedHistory
    { s with
        history := limited
        historyIndex := min (s.historyIndex + 1) ((maxHistorySize : Int) - 1) }

/-- `startBatch`. -/
def startBatch (s : CanvasState) : CanvasState :=
  { s with isBatchingActions := true }

/-- `endBatch`. -/
def endBatch (s : CanvasState) : CanvasState :=
  { s with isBatchingActions := false }

/-- The id string `` `layer_${Date.now()}` ``. -/
def freshId (now : Nat) : String :=
  "layer_" ++ toString now

/-- `addLayer`: build the layer with a timestamp-derived id, append it,
record an `add` action whose `after` is the full layer; returns the id. -/
def addLayer (s : CanvasState) (spec : LayerSpec) (now : Nat) :
    String × CanvasState :=
  let id := freshId now
  let layer := Layer.ofSpec spec id
  let s1 := { s with layers := s.layers ++ [layer] }
  let s2 := addHistoryAction s1
    { type := ActionType.add, layerId := some id,
      after := some (Snapshot.part layer.toPartial) } now
  (id, s2)

/-- `removeLayer`: no-op when the id is absent; otherwise filter the layer
out, record a `remove` action whose `before` is the full layer, and clear
the selection if it pointed at the removed layer. -/
def removeLayer (s : CanvasState) (id : String) (now : Nat) : CanvasState :=
  match s.layers.find? (fun l => l.id = id) with
  | none => s
  | some layerToRemove =>
    let s1 := { s with layers := s.layers.filter (fun l => l.id ≠ id) }
    let s2 := addHistoryAction s1
      { type := ActionType.remove, layerId := some id,
        before := some (Snapshot.part layerToRemove.toPartial) } now
    if s2.selectedLayerId = some id then { s2 with selectedLayerId := none }
    else s2

/-- `updateLayer`: no-op when the id is absent; otherwise shallow-merge
the partial into the matching layer(s) and record an `update` action with
the full layer as `before` and the merged layer as `after`. -/
def updateLayer (s : CanvasState) (id : String) (p : PartialLayer) (now : Nat) :
    CanvasState :=
  match s.layers.find? (fun l => l.id = id) with
  | none => s
  | some layerToUpdate =>
    let s1 := { s with
      layers := s.layers.map (fun l => if l.id = id then mergeLayer l p else l) }
    addHistoryAction s1
      { type := ActionType.update, layerId := some id,
        before := some (Snapshot.part layerToUpdate.toPartial),
        after := some (Snapshot.part (mergeLayer layerToUpdate p).toPartial) }
      now

/-- `moveLayer`: no-op when the id is absent; otherwise replace the
position and record a `move` action carrying position-only snapshots. -/
def moveLayer (s : CanvasState) (id : String) (pos : Pos) (now : Nat) :
    CanvasState :=
  match s.layers.find? (fun l => l.id = id) with
  | none => s
  | some layerToMove =>
    let s1 := { s with
      layers := s.layers.map (fun l =>
        if l.id = id then { l with position := pos } else l) }
    addHistoryAction s1
      { type := ActionType.move, layerId := some id,
        before := some (Snapshot.part { position := some layerToMove.position }),
        after := some (Snapshot.part { position := some pos }) } now

/-- JS `Map` built from the layer list (later entries win): lookup finds
the last layer with the given id. -/
def layerMapGet (ls : List Layer) (id : String) : Option Layer :=
  ls.reverse.find? (fun l => l.id = id)

/-- `reorderLayers(orderedIds)`: the new collection is built from
`orderedIds` alone — each id found in the store yields that layer with
`zIndex := index`, ids not in the store are dropped, and layers of the
store whose id is not listed are dropped too.  Records a `reorder` action
whose `before` is the old collection and whose `after` re-indexes the old
collection in place (as the source does). -/
def reorderLayers (s : CanvasState) (orderedIds : List String) (now : Nat) :
    CanvasState :=
  let oldLayers := s.layers
  let updated := orderedIds.enum.filterMap (fun pr =>
    (layerMapGet s.layers pr.2).map (fun l => { l with zIndex := (pr.1 : Int) }))
  let afterSnap := oldLayers.enum.map (fun pr =>
    { pr.2 with zIndex := (pr.1 : Int) })
  let s1 := { s with layers := updated }
  addHistoryAction s1
    { type := ActionType.reorder,
      before := some (Snapshot.layers oldLayers),
      after := some (Snapshot.layers afterSnap) } now

/-- `selectLayer`. -/
def selectLayer (s : CanvasState) (id : Option String) : CanvasState :=
  { s with selectedLayerId := id }

/-- `setPoints`. -/
def setPoints (s : CanvasState) (points : List MapPoint) : CanvasState :=
  { s with mapPoints := points }

/-- `clearLayers`: empty the collection, clear the selection, and record
a `remove` action carrying the old collection as a bulk `before` snapshot
and no `layerId`. -/
def clearLayers (s : CanvasState) (now : Nat) : CanvasState :=
  let oldLayers := s.layers
  let s1 := { s with layers := [], selectedLayerId := none }
  addHistoryAction s1
    { type := ActionType.remove,
      before := some (Snapshot.layers oldLayers) } now

/-- The effect of `undo`'s `switch` on the layer collection (the switch
only ever calls `setLayers`).  The branches mirror the source's
truthiness guards: `add` needs `layerId`; `remove` needs `before` and
`layerId` and casts `before` to a full layer; `update`/`move` need
`before` and `layerId` and spread the partial; `reorder` needs a `before`
with a `layers` property.  A bulk snapshot reaching a casting/spreading
branch is never produced by the API. -/
def undoLayers (ls : List Layer) (act : HistoryAction) : List Layer :=
  match act.type with
  | ActionType.add =>
    match act.layerId with
    | some lid => ls.filter (fun l => l.id ≠ lid)
    | none => ls
  | ActionType.remove =>
    match act.before, act.layerId with
    | some (Snapshot.part p), some _ =>
      match p.asLayer with
      | some l => ls ++ [l]
      | none => ls
    | _, _ => ls
  | ActionType.update | ActionType.move =>
    match act.before, act.layerId with
    | some (Snapshot.part p), some lid =>
      ls.map (fun l => if l.id = lid then mergeLayer l p else l)
    | _, _ => ls
  | ActionType.reorder =>
    match act.before with
    | some (Snapshot.layers before) => before
    | _ => ls

/-- The effect of `redo`'s `switch` on the layer collection, symmetric to
`undoLayers` using `after` (note: the `add` branch checks only `after`,
not `layerId`). -/
def redoLayers (ls : List Layer) (act : HistoryAction) : List Layer :=
  match act.type with
  | ActionType.add =>
    match act.after with
    | some (Snapshot.part p) =>
      match p.asLayer with
      | some l => ls ++ [l]
      | none => ls
    | _ => ls
  | ActionType.remove =>
    match act.layerId with
    | some lid => ls.filter (fun l => l.id ≠ lid)
    | none => ls
  | ActionType.update | ActionType.move =>
    match act.after, act.layerId with
    | some (Snapshot.part p), some lid =>
      ls.map (fun l => if l.id = lid then mergeLayer l p else l)
    | _, _ => ls
  | ActionType.reorder =>
    match act.after with
    | some (Snapshot.layers after) => after
    | _ => ls

/-- `undo`: no-op when `historyIndex < 0`; otherwise apply the inverse of
the action at the cursor and decrement the cursor (the `finally` block
decrements even when the `switch` changed nothing). -/
def undo (s : CanvasState) : CanvasState :=
  if s.historyIndex < 0 then s
  else
    { s with
        layers :=
          match getAt s.history s.historyIndex with
          | some act => undoLayers s.layers act
          | none => s.layers
        historyIndex := s.historyIndex - 1 }

/-- `redo`: no-op when `historyIndex ≥ history.length - 1`; otherwise
reapply the action after the cursor and increment the cursor. -/
def redo (s : CanvasState) : CanvasState :=
  if (s.history.length : Int) - 1 ≤ s.historyIndex then s
  else
    { s with
        layers :=
          match getAt s.history (s.historyIndex + 1) with
          | some act => redoLayers s.layers act
          | none => s.layers
        historyIndex := s.historyIndex + 1 }

/-- Derived lookup `selectedLayer` (`find ... || null`). -/
def selectedLayer (s : CanvasState) : Option Layer :=
  match s.selectedLayerId with
  | some id => s.layers.find? (fun l => l.id = id)
  | none => none

/-- `canUndo = historyIndex >= 0`. -/
def canUndo (s : CanvasState) : Bool :=
  0 ≤ s.historyIndex

/-- `canRedo = historyIndex < history.length - 1`. -/
def canRedo (s : CanvasState) : Bool :=
  s.historyIndex < (s.history.length : Int) - 1

/-- One public operation of the hook, as enumerated in the spec's
invariant: a step from state to state (timestamps and arguments are
environment inputs). -/
inductive Step : CanvasState → CanvasState → Prop where
  | add (s : CanvasState) (spec : LayerSpec) (now : Nat) :
      Step s (addLayer s spec now).2
  | remove (s : CanvasState) (id : String) (now : Nat) :
      Step s (removeLayer s id now)
  | update (s : CanvasState) (id : String) (p : PartialLayer) (now : Nat) :
      Step s (updateLayer s id p now)
  | move (s : CanvasState) (id : String) (pos : Pos) (now : Nat) :
      Step s (moveLayer s id pos now)
  | reorder (s : CanvasState) (ids : List String) (now : Nat) :
      Step s (reorderLayers s ids now)
  | select (s : CanvasState) (id : Option String) :
      Step s (selectLayer s id)
  | clear (s : CanvasState) (now : Nat) :
      Step s (clearLayers s now)
  | undoStep (s : CanvasState) : Step s (undo s)
  | redoStep (s : CanvasState) : Step s (redo s)

/-- Reachability from an initial hook state by public operations. -/
def Reachable (init : List Layer) (s : CanvasState) : Prop :=
  Relation.ReflTransGen Step (initState init) s

/-- History well-formedness: the cursor is at least −1, at most the last
log position, and the log is within capacity.  Holds for `initState` and
is preserved by every operation. -/
def WFHistory (s : CanvasState) : Prop :=
  -1 ≤ s.historyIndex ∧ s.historyIndex + 1 ≤ (s.history.length : Int) ∧
    s.history.length ≤ maxHistorySize

/-! ### Concrete fixtures used by witnesses and counterexamples -/

/-- A concrete house layer with id `"a"`. -/
def exLayerA : Layer :=
  { id := "a", type := "house", position := ⟨100, 100⟩, scale := 1,
    rotation := none, opacity := 1, zIndex := 0, locked := false,
    visible := true, version := 1, texturePath := "/a.svg" }

/-- A concrete tree layer with id `"b"`. -/
def exLayerB : Layer :=
  { id := "b", type := "tree", position := ⟨200, 300⟩, scale := 1,
    rotation := none, opacity := 1, zIndex := 1, locked := false,
    visible := true, version := 1, texturePath := "/b.svg" }

/-- A concrete store holding layers `"a"` and `"b"`. -/
def exState : CanvasState := initState [exLayerA, exLayerB]

/-- A concrete `addLayer` spec whose opacity 2 lies outside `[0, 1]`. -/
def exSpec : LayerSpec :=
  { type := "house", position := ⟨1, 2⟩, scale := 1, rotation := none,
    opacity := 2, zIndex := 0, locked := false, visible := true,
    version := 1, texturePath := "/a.svg" }

/-- A concrete `Partial<Layer>` that reassigns `id` and `type`. -/
def exIdTypePartial : PartialLayer :=
  { id := some "zz", type := some "cat" }

/-- The state reached by two `addLayer` calls sharing timestamp 7. -/
def exCollidedState : CanvasState :=
  (addLayer (addLayer (initState []) exSpec 7).2 exSpec 7).2

/-- Stamp a pending action with its call-time timestamp. -/
def stampAction (pa : PreAction × Nat) : HistoryAction :=
  HistoryAction.ofPre pa.1 pa.2

/-- Record a sequence of (action, timestamp) pairs in order. -/
def recordAll (s : CanvasState) (acts : List (PreAction × Nat)) : CanvasState :=
  acts.foldl (fun t pa => addHistoryAction t pa.1 pa.2) s

/-- 21 concrete recorded actions with timestamps 0..20. -/
def exActs : List (PreAction × Nat) :=
  (List.range 21).map (fun i => ({ type := ActionType.add }, i))

/-!
### Render synchronizer (`renderLayers` in `CityCanvas.tsx`)

`renderLayers` is an async pass: it removes every tracked display object
from the stage, clears the tracking map, sorts the snapshot by `zIndex`,
and for each visible layer either reuses a cached texture (no suspension)
or `await`s a texture load (one suspension point) before creating the
sprite, adding it to the stage and tracking it.  The scheduling is
single-threaded and cooperative: only the `await` can interleave two
overlapping passes.  We embed a pass as a small-step machine whose steps
are the atomic segments between suspension points.  A `tag` on each
sprite models JavaScript object identity only (which object `removeChild`
removes); the source has no generation counter of any kind.
-/

/-- A sprite as configured by `renderLayers`: position, scale,
`rotation || 0`, `alpha := opacity`, `interactive := !locked`. -/
structure Sprite where
  tag : Nat × Nat
  layerId : String
  texturePath : String
  pos : Pos
  scale : Int
  rotation : Int
  alpha : Int
  interactive : Bool
deriving DecidableEq

/-- Build the sprite a pass creates for a layer (`tag` = pass id and
per-pass creation counter, modelling object identity). -/
def mkSprite (passId ctr : Nat) (l : Layer) : Sprite :=
  { tag := (passId, ctr), layerId := l.id, texturePath := l.texturePath,
    pos := l.position, scale := l.scale, rotation := l.rotation.getD 0,
    alpha := l.opacity, interactive := !l.locked }

/-- JS `Map.set`: replace in place when the key exists, else append. -/
def mapSet (m : List (String × Sprite)) (k : String) (v : Sprite) :
    List (String × Sprite) :=
  if m.any (fun e => e.1 = k) then
    m.map (fun e => if e.1 = k then (k, v) else e)
  else m ++ [(k, v)]

/-- The shared mutable state `renderLayers` touches: the stage's child
list (paint order), the `layersRef` tracking map, and the texture cache
(a texture is identified by its path). -/
structure World where
  stage : List Sprite
  tracked : List (String × Sprite)
  cache : List String
deriving DecidableEq

/-- Create a sprite for `l`, add it to the stage and track it. -/
def addSpriteW (passId ctr : Nat) (w : World) (l : Layer) : World :=
  { w with
      stage := w.stage ++ [mkSprite passId ctr l],
      tracked := mapSet w.tracked l.id (mkSprite passId ctr l) }

/-- Stable insertion of a layer before the first element of not-smaller
`zIndex` (earlier elements win ties). -/
def insertByZ (a : Layer) : List Layer → List Layer
  | [] => [a]
  | b :: bs => if a.zIndex ≤ b.zIndex then a :: b :: bs else b :: insertByZ a bs

/-- `[...layers].sort((a, b) => a.zIndex - b.zIndex)`: a stable sort by
ascending `zIndex` (insertion sort, extensionally the stable sort the JS
engine performs). -/
def sortByZ (ls : List Layer) : List Layer :=
  ls.foldr insertByZ []

/-- Continuation of a reconciliation pass between atomic segments. -/
inductive PassCont where
  | start (snap : List Layer)
  | loop (pending : List Layer) (ctr : Nat)
  | awaiting (l : Layer) (pending : List Layer) (ctr : Nat)
  | done
deriving DecidableEq

/-- One atomic segment of `renderLayers`: `start` removes the tracked
display objects and clears the map; `loop` skips an invisible layer,
renders a cache-hit layer at once, or suspends into `awaiting` at the
texture `await`; `awaiting` resumes after the load, fills the cache and
renders the sprite. -/
def passStep (passId : Nat) (w : World) (c : PassCont) : World × PassCont :=
  match c with
  | PassCont.start snap =>
    ({ w with
        stage := w.stage.filter
          (fun sp => ! w.tracked.any (fun e => e.2 = sp)),
        tracked := [] },
     PassCont.loop (sortByZ snap) 0)
  | PassCont.loop [] _ => (w, PassCont.done)
  | PassCont.loop (l :: rest) ctr =>
    if l.visible = false then (w, PassCont.loop rest ctr)
    else if l.texturePath ∈ w.cache then
      (addSpriteW passId ctr w l, PassCont.loop rest (ctr + 1))
    else (w, PassCont.awaiting l rest ctr)
  | PassCont.awaiting l rest ctr =>
    (addSpriteW passId ctr { w with cache := w.cache ++ [l.texturePath] } l,
     PassCont.loop rest (ctr + 1))
  | PassCont.done => (w, PassCont.done)

/-- Run one pass alone for `fuel` atomic segments. -/
def runPass (passId : Nat) : Nat → World → PassCont → World × PassCont
  | 0, w, c => (w, c)
  | n + 1, w, c =>
    runPass passId n (passStep passId w c).1 (passStep passId w c).2

/-- Interleave two overlapping passes under a schedule (`true` steps the
first pass, `false` the second). -/
def runTwo (w : World) (c1 c2 : PassCont) :
    List Bool → World × PassCont × PassCont
  | [] => (w, c1, c2)
  | b :: rest =>
    if b then
      runTwo (passStep 1 w c1).1 (passStep 1 w c1).2 c2 rest
    else
      runTwo (passStep 2 w c2).1 c1 (passStep 2 w c2).2 rest

/-- An empty rendering surface. -/
def emptyWorld : World :=
  { stage := [], tracked := [], cache := [] }

/-! ### Helper lemmas -/

/-- `addHistoryAction` only touches `history` and `historyIndex`. -/
theorem addHistoryAction_layers (s : CanvasState) (pa : PreAction) (now : Nat) :
    (addHistoryAction s pa now).layers = s.layers := by
  unfold addHistoryAction
  split <;> rfl

/-- `addHistoryAction` leaves the selection unchanged. -/
theorem addHistoryAction_selected (s : CanvasState) (pa : PreAction) (now : Nat) :
    (addHistoryAction s pa now).selectedLayerId = s.selectedLayerId := by
  unfold addHistoryAction
  split <;> rfl

/-- `addHistoryAction` leaves the batching flag unchanged. -/
theorem addHistoryAction_batching (s : CanvasState) (pa : PreAction) (now : Nat) :
    (addHistoryAction s pa now).isBatchingActions = s.isBatchingActions := by
  unfold addHistoryAction
  split <;> rfl

/-- Casting a full layer's snapshot back to a layer is the identity. -/
theorem asLayer_toPartial (l : Layer) : l.toPartial.asLayer = some l := by
  rfl

/-- Merging the snapshot of a full layer `m` into `x` yields `m`, provided
`m` carries a rotation or `x`'s rotation already agrees (the one field a
layer snapshot can omit). -/
theorem mergeLayer_toPartial (x m : Layer)
    (h : m.rotation.isSome ∨ x.rotation = m.rotation) :
    mergeLayer x m.toPartial = m := by
  rcases m with ⟨mid, mty, mpos, msc, mrot, mop, mz, mlk, mvis, mver, mtp⟩
  cases mrot with
  | some r => rfl
  | none =>
    rcases h with h | h
    · simp [Option.isSome] at h
    · simp only [Layer.rotation] at h
      simp [mergeLayer, Layer.toPartial, h]

/-- With pairwise-distinct ids, two members sharing an id are equal. -/
theorem eq_of_mem_of_id_eq {ls : List Layer} {x y : Layer}
    (hnd : (ls.map Layer.id).Nodup) (hx : x ∈ ls) (hy : y ∈ ls)
    (h : x.id = y.id) : x = y :=
  List.inj_on_of_nodup_map hnd hx hy h

/-- With pairwise-distinct ids, the JS-`Map` lookup (last match) agrees
with `find?` (first match). -/
theorem layerMapGet_eq_find? (ls : List Layer) (idv : String)
    (hnd : (ls.map Layer.id).Nodup) :
    layerMapGet ls idv = ls.find? (fun l => l.id = idv) := by
  unfold layerMapGet
  cases hr : ls.reverse.find? (fun l => l.id = idv) with
  | none =>
    cases hf : ls.find? (fun l => l.id = idv) with
    | none => rfl
    | some b =>
      exfalso
      have hb := List.mem_of_find?_eq_some hf
      have hpb := List.find?_some hf
      have := (List.find?_eq_none.mp hr) b (List.mem_reverse.mpr hb)
      exact this hpb
  | some a =>
    have ha : a ∈ ls := List.mem_reverse.mp (List.mem_of_find?_eq_some hr)
    have hpa : a.id = idv := by
      have := List.find?_some hr
      exact of_decide_eq_true this
    cases hf : ls.find? (fun l => l.id = idv) with
    | none =>
      exfalso
      have := (List.find?_eq_none.mp hf) a ha
      exact this (decide_eq_true hpa)
    | some b =>
      have hb : b ∈ ls := List.mem_of_find?_eq_some hf
      have hpb' := List.find?_some hf
      have hpb : b.id = idv := of_decide_eq_true hpb'
      exact congrArg some (eq_of_mem_of_id_eq hnd ha hb (hpa.trans hpb.symm))

/-! ### C4 — selection invariant -/

/-- C4: in every state reachable by the public operations, the derived
`selectedLayer` is `null` or a layer present in the current collection.
(The lookup guarantees this for every state whatsoever.) -/
theorem C4_selectedLayer_invariant (init : List Layer) (s : CanvasState)
    (hreach : Reachable init s) :
    selectedLayer s = none ∨ ∃ l ∈ s.layers, selectedLayer s = some l := by
  clear hreach
  unfold selectedLayer
  cases hsel : s.selectedLayerId with
  | none => exact Or.inl rfl
  | some id =>
    dsimp only
    cases hf : s.layers.find? (fun l => l.id = id) with
    | none => exact Or.inl rfl
    | some l => exact Or.inr ⟨l, List.mem_of_find?_eq_some hf, rfl⟩

/-- Witness for C4 at the concrete two-layer store after selecting `"a"`. -/
theorem C4_selectedLayer_invariant_witness :
    Reachable [exLayerA, exLayerB] (selectLayer exState (some "a")) ∧
      (selectedLayer (selectLayer exState (some "a")) = none ∨
        ∃ l ∈ (selectLayer exState (some "a")).layers,
          selectedLayer (selectLayer exState (some "a")) = some l) :=
  ⟨Relation.ReflTransGen.single (Step.select exState (some "a")),
   C4_selectedLayer_invariant [exLayerA, exLayerB] _
     (Relation.ReflTransGen.single (Step.select exState (some "a")))⟩

/-! ### C9 — unknown-id mutations are silent no-ops -/

/-- C9: `removeLayer`, `updateLayer` and `moveLayer` on an id absent from
the store return the state entirely unchanged (layers, selection, history
log, cursor, and hence `canUndo`/`canRedo`); no error is possible. -/
theorem C9_unknown_id_noop (s : CanvasState) (id : String) (now : Nat)
    (p : PartialLayer) (pos : Pos)
    (habs : s.layers.find? (fun l => l.id = id) = none) :
    removeLayer s id now = s ∧ updateLayer s id p now = s ∧
      moveLayer s id pos now = s := by
  refine ⟨?_, ?_, ?_⟩
  · unfold removeLayer
    rw [habs]
  · unfold updateLayer
    rw [habs]
  · unfold moveLayer
    rw [habs]

/-- Witness for C9: mutating the absent id `"nonexistent"` on the concrete
store changes nothing. -/
theorem C9_unknown_id_noop_witness :
    exState.layers.find? (fun l => l.id = "nonexistent") = none ∧
      removeLayer exState "nonexistent" 9 = exState ∧
      updateLayer exState "nonexistent" exIdTypePartial 9 = exState ∧
      moveLayer exState "nonexistent" ⟨5, 5⟩ 9 = exState :=
  ⟨by decide,
   (C9_unknown_id_noop exState "nonexistent" 9 exIdTypePartial ⟨5, 5⟩
     (by decide)).1,
   (C9_unknown_id_noop exState "nonexistent" 9 exIdTypePartial ⟨5, 5⟩
     (by decide)).2.1,
   (C9_unknown_id_noop exState "nonexistent" 9 exIdTypePartial ⟨5, 5⟩
     (by decide)).2.2⟩

/-- The collection after `addLayer` is the old one with `{ ...spec, id }`
appended. -/
theorem addLayer_layers (s : CanvasState) (spec : LayerSpec) (now : Nat) :
    (addLayer s spec now).2.layers =
      s.layers ++ [Layer.ofSpec spec (freshId now)] := by
  unfold addLayer
  simp only [addHistoryAction_layers]

/-! ### C7 — addLayer stores the spec verbatim (no clamping) -/

/-- C7 counterexample: adding a spec with opacity 2 stores opacity 2,
outside `[0, 1]` — `addLayer` performs no clamping and no scale check. -/
theorem C7_no_clamping_counterexample :
    ((addLayer exState exSpec 7).2.layers.map Layer.opacity = [1, 1, 2]) ∧
      ¬ ((2 : Int) ≤ 1) := by
  constructor
  · decide
  · decide

/-- C7 amended: `addLayer` appends `{ ...spec, id }` verbatim — the stored
layer's opacity and scale equal the input's, with no clamping into `[0,1]`
and no `scale > 0` enforcement; the returned id is the timestamp id. -/
theorem C7_addLayer_verbatim (s : CanvasState) (spec : LayerSpec) (now : Nat) :
    (addLayer s spec now).2.layers =
        s.layers ++ [Layer.ofSpec spec (freshId now)] ∧
      (Layer.ofSpec spec (freshId now)).opacity = spec.opacity ∧
      (Layer.ofSpec spec (freshId now)).scale = spec.scale ∧
      (addLayer s spec now).1 = freshId now :=
  ⟨addLayer_layers s spec now, rfl, rfl, rfl⟩

/-! ### C6 — updateLayer merges id and type too -/

/-- C6 counterexample: updating layer `"a"` with a partial carrying
`id: "zz"` and `type: "cat"` reassigns both fields, so the ids of the
store change — the claim that `id`/`type` are never changed is false. -/
theorem C6_id_type_reassigned_counterexample :
    ((updateLayer exState "a" exIdTypePartial 2).layers.map Layer.id
        = ["zz", "b"]) ∧
      ((updateLayer exState "a" exIdTypePartial 2).layers.map Layer.type
        = ["cat", "tree"]) ∧
      ¬ ((updateLayer exState "a" exIdTypePartial 2).layers.map Layer.id
        = exState.layers.map Layer.id) := by
  refine ⟨by decide, by decide, by decide⟩

/-- C6 amended: when the id is present, `updateLayer` shallow-merges the
partial into every matching layer — including the `id` and `type` fields,
which take the partial's value whenever it carries one. -/
theorem C6_updateLayer_merges_all_fields (s : CanvasState) (id : String)
    (p : PartialLayer) (now : Nat) (l : Layer)
    (hfind : s.layers.find? (fun x => x.id = id) = some l) :
    (updateLayer s id p now).layers =
        s.layers.map (fun x => if x.id = id then mergeLayer x p else x) ∧
      (mergeLayer l p).id = p.id.getD l.id ∧
      (mergeLayer l p).type = p.type.getD l.type := by
  refine ⟨?_, rfl, rfl⟩
  unfold updateLayer
  rw [hfind]
  simp only [addHistoryAction_layers]

/-- Witness for C6 amended at the concrete store. -/
theorem C6_updateLayer_merges_all_fields_witness :
    exState.layers.find? (fun x => x.id = "a") = some exLayerA ∧
      ((updateLayer exState "a" exIdTypePartial 2).layers =
        exState.layers.map
          (fun x => if x.id = "a" then mergeLayer x exIdTypePartial else x) ∧
      (mergeLayer exLayerA exIdTypePartial).id =
        exIdTypePartial.id.getD exLayerA.id ∧
      (mergeLayer exLayerA exIdTypePartial).type =
        exIdTypePartial.type.getD exLayerA.type) :=
  ⟨by decide,
   C6_updateLayer_merges_all_fields exState "a" exIdTypePartial 2 exLayerA
     (by decide)⟩

/-! ### C2 — reorderLayers drops omitted ids -/

/-- C2 counterexample: with layers `"a"`, `"b"` in the store,
`reorderLayers(["a"])` leaves a store containing only `"a"` — the omitted
layer `"b"` does not remain with its existing zIndex, it is gone. -/
theorem C2_omitted_id_dropped_counterexample :
    exState.layers.find? (fun l => l.id = "b") = some exLayerB ∧
      (reorderLayers exState ["a"] 1).layers.find? (fun l => l.id = "b")
        = none ∧
      (reorderLayers exState ["a"] 1).layers.map (fun l => (l.id, l.zIndex))
        = [("a", 0)] := by
  refine ⟨by decide, by decide, by decide⟩

/-- C2 amended: `reorderLayers(orderedIds)` rebuilds the collection from
`orderedIds` alone — every id of `orderedIds` found in the store yields
that layer with `zIndex` set to its position in `orderedIds`, and every
surviving layer's id occurs in `orderedIds`, so layers whose id was
omitted are removed from the store rather than kept. -/
theorem C2_reorderLayers_rebuilds (s : CanvasState) (orderedIds : List String)
    (now : Nat) (hnd : (s.layers.map Layer.id).Nodup) :
    (∀ x ∈ (reorderLayers s orderedIds now).layers, x.id ∈ orderedIds) ∧
      (∀ i, (hi : i < orderedIds.length) → ∀ l : Layer,
        s.layers.find? (fun x => x.id = orderedIds[i]) = some l →
        { l with zIndex := (i : Int) } ∈ (reorderLayers s orderedIds now).layers) := by
  have hlayers : (reorderLayers s orderedIds now).layers =
      orderedIds.enum.filterMap (fun pr =>
        (layerMapGet s.layers pr.2).map
          (fun l => { l with zIndex := (pr.1 : Int) })) := by
    unfold reorderLayers
    simp only [addHistoryAction_layers]
  constructor
  · intro x hx
    rw [hlayers] at hx
    rcases List.mem_filterMap.mp hx with ⟨pr, hpr, hfx⟩
    rcases Option.map_eq_some'.mp hfx with ⟨l, hg, hxl⟩
    have hg' : s.layers.reverse.find? (fun y => y.id = pr.2) = some l := hg
    have hpl := List.find?_some hg'
    have hid : l.id = pr.2 := of_decide_eq_true hpl
    have hx2 : x.id = pr.2 := by rw [← hxl]; exact hid
    rw [hx2]
    exact List.snd_mem_of_mem_enum hpr
  · intro i hi l hfind
    rw [hlayers]
    refine List.mem_filterMap.mpr ⟨(i, orderedIds[i]), ?_, ?_⟩
    · have hlen : i < orderedIds.enum.length := by
        rw [List.enum_length]; exact hi
      have := List.getElem_enum orderedIds i hlen
      rw [← this]
      exact List.getElem_mem hlen
    · rw [layerMapGet_eq_find? s.layers orderedIds[i] hnd, hfind]
      rfl

/-- Witness for C2 amended: `reorderLayers(["b", "a"])` puts `"b"` at
zIndex 0 in the concrete store. -/
theorem C2_reorderLayers_rebuilds_witness :
    (exState.layers.map Layer.id).Nodup ∧
      exState.layers.find? (fun x => x.id = "b") = some exLayerB ∧
      { exLayerB with zIndex := (0 : Int) }
        ∈ (reorderLayers exState ["b", "a"] 1).layers :=
  ⟨by decide, by decide,
   (C2_reorderLayers_rebuilds exState ["b", "a"] 1 (by decide)).2 0
     (by decide) exLayerB (by decide)⟩

/-! ### C8 — timestamp-derived ids collide within a tick -/

/-- C8 counterexample: two `addLayer` calls at the same timestamp reach a
store whose two layers share the id `"layer_7"` — the pairwise-distinct-id
invariant fails on a reachable state. -/
theorem C8_same_tick_collision_counterexample :
    Reachable [] exCollidedState ∧
      exCollidedState.layers.map Layer.id = ["layer_7", "layer_7"] ∧
      ¬ (exCollidedState.layers.map Layer.id).Nodup := by
  refine ⟨?_, by decide, by decide⟩
  exact Relation.ReflTransGen.head (Step.add (initState []) exSpec 7)
    (Relation.ReflTransGen.single
      (Step.add (addLayer (initState []) exSpec 7).2 exSpec 7))

/-- C8 amended: ids stay pairwise distinct exactly as long as each
`addLayer` call's timestamp id `layer_${now}` differs from every id
already in the store; under that freshness premise `addLayer` preserves
the distinctness invariant (same-tick calls violate the premise). -/
theorem C8_addLayer_fresh_preserves_nodup (s : CanvasState)
    (spec : LayerSpec) (now : Nat)
    (hnd : (s.layers.map Layer.id).Nodup)
    (hfresh : ∀ l ∈ s.layers, l.id ≠ freshId now) :
    ((addLayer s spec now).2.layers.map Layer.id).Nodup := by
  rw [addLayer_layers, List.map_append]
  rw [List.nodup_append]
  refine ⟨hnd, List.nodup_singleton _, ?_⟩
  intro a ha hb
  simp only [List.map_cons, List.map_nil, List.mem_singleton] at hb
  rcases List.mem_map.mp ha with ⟨l, hl, hla⟩
  apply hfresh l hl
  rw [hla]
  exact hb

/-- Witness for C8 amended: adding at the fresh timestamp 8 keeps the
concrete store's ids distinct. -/
theorem C8_addLayer_fresh_preserves_nodup_witness :
    (exState.layers.map Layer.id).Nodup ∧
      (∀ l ∈ exState.layers, l.id ≠ freshId 8) ∧
      (((addLayer exState exSpec 8).2.layers.map Layer.id)).Nodup :=
  ⟨by decide, by decide,
   C8_addLayer_fresh_preserves_nodup exState exSpec 8 (by decide) (by decide)⟩

/-! ### History-recording characterization -/

/-- With batching off, `addHistoryAction` truncates the redo tail,
appends the stamped action, trims to capacity and advances the cursor. -/
theorem addHistoryAction_eq (s : CanvasState) (pa : PreAction) (now : Nat)
    (hb : s.isBatchingActions = false) :
    addHistoryAction s pa now =
      { s with
          history :=
            if (s.history.take (s.historyIndex + 1).toNat ++
                  [HistoryAction.ofPre pa now]).length > maxHistorySize then
              (s.history.take (s.historyIndex + 1).toNat ++
                  [HistoryAction.ofPre pa now]).drop
                ((s.history.take (s.historyIndex + 1).toNat ++
                  [HistoryAction.ofPre pa now]).length - maxHistorySize)
            else
              s.history.take (s.historyIndex + 1).toNat ++
                [HistoryAction.ofPre pa now]
          historyIndex := min (s.historyIndex + 1) ((maxHistorySize : Int) - 1) } := by
  unfold addHistoryAction
  rw [hb]
  rfl

/-- With a well-formed history and batching off, the recorded log is some
prefix followed by the new stamped action, the cursor points at that
action, and capacity is respected. -/
theorem addHistoryAction_props (s : CanvasState) (pa : PreAction) (now : Nat)
    (hwf : WFHistory s) (hb : s.isBatchingActions = false) :
    ∃ pre : List HistoryAction,
      (addHistoryAction s pa now).history = pre ++ [HistoryAction.ofPre pa now] ∧
        (addHistoryAction s pa now).historyIndex = (pre.length : Int) ∧
        (addHistoryAction s pa now).history.length ≤ maxHistorySize := by
  obtain ⟨h1, h2, h3⟩ := hwf
  rw [addHistoryAction_eq s pa now hb]
  have hk : ((s.historyIndex + 1).toNat : Int) = s.historyIndex + 1 :=
    Int.toNat_of_nonneg (by omega)
  have hkle : (s.historyIndex + 1).toNat ≤ s.history.length := by
    omega
  have htake : (s.history.take (s.historyIndex + 1).toNat).length =
      (s.historyIndex + 1).toNat := by
    rw [List.length_take]
    omega
  by_cases hbig :
      (s.history.take (s.historyIndex + 1).toNat ++
        [HistoryAction.ofPre pa now]).length > maxHistorySize
  · rw [if_pos hbig]
    rw [List.length_append, List.length_singleton, htake] at hbig
    have hk20 : (s.historyIndex + 1).toNat = maxHistorySize := by
      unfold maxHistorySize at hbig h3 ⊢
      omega
    refine ⟨(s.history.take (s.historyIndex + 1).toNat).drop
      ((s.history.take (s.historyIndex + 1).toNat ++
        [HistoryAction.ofPre pa now]).length - maxHistorySize), ?_, ?_, ?_⟩
    · rw [List.drop_append_of_le_length]
      rw [List.length_append, List.length_singleton, htake, hk20]
      simp [maxHistorySize, htake, hk20]
    · dsimp only
      rw [List.length_drop, List.length_append, List.length_singleton, htake,
        hk20]
      have h20 : s.historyIndex + 1 = ((maxHistorySize : Nat) : Int) := by
        rw [← hk, hk20]
      rw [h20]
      decide
    · dsimp only
      rw [List.length_drop, List.length_append, List.length_singleton, htake,
        hk20]
      decide
  · rw [if_neg hbig]
    rw [List.length_append, List.length_singleton, htake] at hbig
    refine ⟨s.history.take (s.historyIndex + 1).toNat, rfl, ?_, ?_⟩
    · dsimp only
      rw [htake, hk]
      have hble : s.historyIndex + 1 ≤ ((maxHistorySize : Nat) : Int) - 1 := by
        simp only [maxHistorySize] at hbig ⊢
        omega
      rw [min_eq_left hble]
    · dsimp only
      rw [List.length_append, List.length_singleton, htake]
      simp only [maxHistorySize] at hbig ⊢
      omega

/-- After a record with batching off and a well-formed history: the
cursor is non-negative, sits on the last log entry, that entry is the
stamped action, and the result is again well-formed. -/
theorem addHistoryAction_cursor (s : CanvasState) (pa : PreAction) (now : Nat)
    (hwf : WFHistory s) (hb : s.isBatchingActions = false) :
    0 ≤ (addHistoryAction s pa now).historyIndex ∧
      (addHistoryAction s pa now).historyIndex =
        ((addHistoryAction s pa now).history.length : Int) - 1 ∧
      getAt (addHistoryAction s pa now).history
          (addHistoryAction s pa now).historyIndex =
        some (HistoryAction.ofPre pa now) ∧
      WFHistory (addHistoryAction s pa now) := by
  obtain ⟨pre, hh, hi, hcap⟩ := addHistoryAction_props s pa now hwf hb
  have hlen : (addHistoryAction s pa now).history.length = pre.length + 1 := by
    rw [hh, List.length_append, List.length_singleton]
  refine ⟨by omega, by rw [hlen]; omega, ?_, ?_⟩
  · unfold getAt
    rw [if_pos (by omega), hi, hh]
    have : ((pre.length : Int)).toNat = pre.length := by omega
    rw [this]
    exact List.getElem?_concat_length pre _
  · refine ⟨by omega, by rw [hlen]; omega, hcap⟩

/-- With the cursor sitting on the last entry `act`, `undo` applies
`undoLayers` and moves the cursor back, and `redo` then reapplies
`redoLayers` and restores the cursor — regardless of what `act` is. -/
theorem undo_redo_of_cursor (s : CanvasState) (act : HistoryAction)
    (h0 : 0 ≤ s.historyIndex)
    (hget : getAt s.history s.historyIndex = some act)
    (hlast : s.historyIndex = (s.history.length : Int) - 1) :
    (undo s).layers = undoLayers s.layers act ∧
      (undo s).historyIndex = s.historyIndex - 1 ∧
      (undo s).history = s.history ∧
      (redo (undo s)).layers = redoLayers (undoLayers s.layers act) act ∧
      (redo (undo s)).historyIndex = s.historyIndex := by
  have hu : undo s =
      { s with layers := undoLayers s.layers act,
               historyIndex := s.historyIndex - 1 } := by
    unfold undo
    rw [if_neg (by omega), hget]
  refine ⟨by rw [hu], by rw [hu], by rw [hu], ?_, ?_⟩
  · have hr : redo (undo s) =
        { undo s with
            layers := redoLayers (undo s).layers act,
            historyIndex := (undo s).historyIndex + 1 } := by
      unfold redo
      rw [hu]
      have hguard : ¬ ((s.history.length : Int) - 1 ≤ s.historyIndex - 1) := by
        omega
      rw [if_neg hguard]
      have : s.historyIndex - 1 + 1 = s.historyIndex := by omega
      rw [this, hget]
    rw [hr, hu]
  · have hr : (redo (undo s)).historyIndex = (undo s).historyIndex + 1 := by
      unfold redo
      rw [hu]
      have hguard : ¬ ((s.history.length : Int) - 1 ≤ s.historyIndex - 1) := by
        omega
      rw [if_neg hguard]
    rw [hr, hu]
    show s.historyIndex - 1 + 1 = s.historyIndex
    omega

/-! ### C5 — clearLayers' bulk snapshot is not undoable -/

/-- C5: `clearLayers` records a `remove` entry carrying the full old
collection as its `before` snapshot but no `layerId`; `undo` right after
it leaves the collection empty (the `remove` branch requires a `layerId`)
while still decrementing the cursor — the cleared layers are not
restored, contradicting the claim and the snapshot's own evident purpose. -/
theorem C5_clearLayers_undo_restores_nothing :
    (clearLayers exState 4).history =
        [{ type := ActionType.remove,
           before := some (Snapshot.layers [exLayerA, exLayerB]),
           timestamp := 4 }] ∧
      canUndo (clearLayers exState 4) = true ∧
      (undo (clearLayers exState 4)).layers = [] ∧
      (undo (clearLayers exState 4)).historyIndex = -1 ∧
      exState.layers = [exLayerA, exLayerB] := by
  refine ⟨by decide, by decide, by decide, by decide, by decide⟩

/-! ### Branch shapes of the undo/redo switch -/

theorem undoLayers_add_eq (ls : List Layer) (id : String) (aft : Option Snapshot)
    (now : Nat) :
    undoLayers ls (HistoryAction.ofPre
        { type := ActionType.add, layerId := some id, after := aft } now) =
      ls.filter (fun l => l.id ≠ id) := rfl

theorem redoLayers_add_part (ls : List Layer) (id : String) (p : PartialLayer)
    (now : Nat) :
    redoLayers ls (HistoryAction.ofPre
        { type := ActionType.add, layerId := some id,
          after := some (Snapshot.part p) } now) =
      (match p.asLayer with
        | some l => ls ++ [l]
        | none => ls) := rfl

theorem undoLayers_remove_part (ls : List Layer) (id : String) (p : PartialLayer)
    (now : Nat) :
    undoLayers ls (HistoryAction.ofPre
        { type := ActionType.remove, layerId := some id,
          before := some (Snapshot.part p) } now) =
      (match p.asLayer with
        | some l => ls ++ [l]
        | none => ls) := rfl

theorem redoLayers_remove_eq (ls : List Layer) (id : String)
    (bef : Option Snapshot) (now : Nat) :
    redoLayers ls (HistoryAction.ofPre
        { type := ActionType.remove, layerId := some id, before := bef } now) =
      ls.filter (fun l => l.id ≠ id) := rfl

theorem undoLayers_update_eq (ls : List Layer) (id : String)
    (pb : PartialLayer) (aft : Option Snapshot) (now : Nat) :
    undoLayers ls (HistoryAction.ofPre
        { type := ActionType.update, layerId := some id,
          before := some (Snapshot.part pb), after := aft } now) =
      ls.map (fun x => if x.id = id then mergeLayer x pb else x) := rfl

theorem redoLayers_update_eq (ls : List Layer) (id : String)
    (bef : Option Snapshot) (pa : PartialLayer) (now : Nat) :
    redoLayers ls (HistoryAction.ofPre
        { type := ActionType.update, layerId := some id,
          before := bef, after := some (Snapshot.part pa) } now) =
      ls.map (fun x => if x.id = id then mergeLayer x pa else x) := rfl

theorem undoLayers_move_eq (ls : List Layer) (id : String)
    (pb : PartialLayer) (aft : Option Snapshot) (now : Nat) :
    undoLayers ls (HistoryAction.ofPre
        { type := ActionType.move, layerId := some id,
          before := some (Snapshot.part pb), after := aft } now) =
      ls.map (fun x => if x.id = id then mergeLayer x pb else x) := rfl

theorem redoLayers_move_eq (ls : List Layer) (id : String)
    (bef : Option Snapshot) (pa : PartialLayer) (now : Nat) :
    redoLayers ls (HistoryAction.ofPre
        { type := ActionType.move, layerId := some id,
          before := bef, after := some (Snapshot.part pa) } now) =
      ls.map (fun x => if x.id = id then mergeLayer x pa else x) := rfl

/-- Merging a position-only partial replaces just the position. -/
theorem mergeLayer_posOnly (x : Layer) (q : Pos) :
    mergeLayer x { position := some q } = { x with position := q } := rfl

/-! ### Undo/redo laws per single-layer operation -/

/-- Undoing a fresh-id `addLayer` restores the collection exactly, and
redoing restores the appended collection exactly. -/
theorem undo_redo_addLayer (s : CanvasState) (spec : LayerSpec) (now : Nat)
    (hwf : WFHistory s) (hb : s.isBatchingActions = false)
    (hfresh : ∀ l ∈ s.layers, l.id ≠ freshId now) :
    (undo (addLayer s spec now).2).layers = s.layers ∧
      (redo (undo (addLayer s spec now).2)).layers =
        (addLayer s spec now).2.layers := by
  have hadd : (addLayer s spec now).2 =
      addHistoryAction
        { s with layers := s.layers ++ [Layer.ofSpec spec (freshId now)] }
        { type := ActionType.add, layerId := some (freshId now),
          after := some (Snapshot.part (Layer.ofSpec spec (freshId now)).toPartial) }
        now := rfl
  obtain ⟨hpos, hlast, hget, _⟩ := addHistoryAction_cursor
    { s with layers := s.layers ++ [Layer.ofSpec spec (freshId now)] }
    { type := ActionType.add, layerId := some (freshId now),
      after := some (Snapshot.part (Layer.ofSpec spec (freshId now)).toPartial) }
    now hwf hb
  obtain ⟨hu1, _, _, hrr, _⟩ := undo_redo_of_cursor _ _ hpos hget hlast
  have hulayers : undoLayers
      (addHistoryAction
        { s with layers := s.layers ++ [Layer.ofSpec spec (freshId now)] }
        { type := ActionType.add, layerId := some (freshId now),
          after := some (Snapshot.part (Layer.ofSpec spec (freshId now)).toPartial) }
        now).layers
      (HistoryAction.ofPre
        { type := ActionType.add, layerId := some (freshId now),
          after := some (Snapshot.part (Layer.ofSpec spec (freshId now)).toPartial) }
        now) = s.layers := by
    rw [addHistoryAction_layers, undoLayers_add_eq]
    show (s.layers ++ [Layer.ofSpec spec (freshId now)]).filter
        (fun l => l.id ≠ freshId now) = s.layers
    rw [List.filter_append]
    have h1 : s.layers.filter (fun l => l.id ≠ freshId now) = s.layers :=
      List.filter_eq_self.mpr (fun a ha => decide_eq_true (hfresh a ha))
    have h2 : [Layer.ofSpec spec (freshId now)].filter
        (fun l => l.id ≠ freshId now) = [] := by
      simp [Layer.ofSpec]
    rw [h1, h2, List.append_nil]
  constructor
  · rw [hadd, hu1, hulayers]
  · rw [hadd, hrr, hulayers, redoLayers_add_part, asLayer_toPartial]
    rw [addHistoryAction_layers]

/-- Undoing a `removeLayer` re-appends the removed layer at the end of
the filtered collection (not at its original position); redoing restores
the filtered collection exactly. -/
theorem undo_redo_removeLayer (s : CanvasState) (id : String) (now : Nat)
    (l : Layer) (hwf : WFHistory s) (hb : s.isBatchingActions = false)
    (hfind : s.layers.find? (fun x => x.id = id) = some l) :
    (undo (removeLayer s id now)).layers =
        s.layers.filter (fun x => x.id ≠ id) ++ [l] ∧
      (redo (undo (removeLayer s id now))).layers =
        (removeLayer s id now).layers := by
  have hlidb := List.find?_some hfind
  have hlid : l.id = id := of_decide_eq_true hlidb
  have hrm : removeLayer s id now =
      (if (addHistoryAction
            { s with layers := s.layers.filter (fun x => x.id ≠ id) }
            { type := ActionType.remove, layerId := some id,
              before := some (Snapshot.part l.toPartial) } now).selectedLayerId
          = some id then
        { addHistoryAction
            { s with layers := s.layers.filter (fun x => x.id ≠ id) }
            { type := ActionType.remove, layerId := some id,
              before := some (Snapshot.part l.toPartial) } now
          with selectedLayerId := none }
      else
        addHistoryAction
          { s with layers := s.layers.filter (fun x => x.id ≠ id) }
          { type := ActionType.remove, layerId := some id,
            before := some (Snapshot.part l.toPartial) } now) := by
    unfold removeLayer
    rw [hfind]
  obtain ⟨hpos, hlast, hget, _⟩ := addHistoryAction_cursor
    { s with layers := s.layers.filter (fun x => x.id ≠ id) }
    { type := ActionType.remove, layerId := some id,
      before := some (Snapshot.part l.toPartial) } now hwf hb
  have hfields : (removeLayer s id now).layers =
        (addHistoryAction
          { s with layers := s.layers.filter (fun x => x.id ≠ id) }
          { type := ActionType.remove, layerId := some id,
            before := some (Snapshot.part l.toPartial) } now).layers ∧
      (removeLayer s id now).history =
        (addHistoryAction
          { s with layers := s.layers.filter (fun x => x.id ≠ id) }
          { type := ActionType.remove, layerId := some id,
            before := some (Snapshot.part l.toPartial) } now).history ∧
      (removeLayer s id now).historyIndex =
        (addHistoryAction
          { s with layers := s.layers.filter (fun x => x.id ≠ id) }
          { type := ActionType.remove, layerId := some id,
            before := some (Snapshot.part l.toPartial) } now).historyIndex := by
    rw [hrm]
    split <;> exact ⟨rfl, rfl, rfl⟩
  obtain ⟨hfl, hfh, hfi⟩ := hfields
  obtain ⟨hu1, _, _, hrr, _⟩ := undo_redo_of_cursor (removeLayer s id now)
    (HistoryAction.ofPre
      { type := ActionType.remove, layerId := some id,
        before := some (Snapshot.part l.toPartial) } now)
    (by rw [hfi]; exact hpos)
    (by rw [hfh, hfi]; exact hget)
    (by rw [hfh, hfi]; exact hlast)
  have hulayers : undoLayers (removeLayer s id now).layers
      (HistoryAction.ofPre
        { type := ActionType.remove, layerId := some id,
          before := some (Snapshot.part l.toPartial) } now) =
      s.layers.filter (fun x => x.id ≠ id) ++ [l] := by
    rw [hfl, addHistoryAction_layers, undoLayers_remove_part, asLayer_toPartial]
  constructor
  · rw [hu1, hulayers]
  · rw [hrr, hulayers, redoLayers_remove_eq, List.filter_append]
    have h1 : (s.layers.filter (fun x => x.id ≠ id)).filter
        (fun x => x.id ≠ id) = s.layers.filter (fun x => x.id ≠ id) := by
      apply List.filter_eq_self.mpr
      intro a ha
      exact (List.mem_filter.mp ha).2
    have h2 : [l].filter (fun x => x.id ≠ id) = [] := by
      simp [hlid]
    rw [h1, h2, List.append_nil, hfl, addHistoryAction_layers]

/-- Undoing an `updateLayer` that does not reassign the id and does not
introduce a rotation on a rotation-less layer restores the collection
exactly; redoing restores the merged collection exactly. -/
theorem undo_redo_updateLayer (s : CanvasState) (id : String)
    (p : PartialLayer) (now : Nat) (l : Layer)
    (hwf : WFHistory s) (hb : s.isBatchingActions = false)
    (hnd : (s.layers.map Layer.id).Nodup)
    (hfind : s.layers.find? (fun x => x.id = id) = some l)
    (hpid : p.id = none) (hrot : p.rotation = none ∨ l.rotation.isSome) :
    (undo (updateLayer s id p now)).layers = s.layers ∧
      (redo (undo (updateLayer s id p now))).layers =
        (updateLayer s id p now).layers := by
  have hlidb := List.find?_some hfind
  have hlid : l.id = id := of_decide_eq_true hlidb
  have hlmem : l ∈ s.layers := List.mem_of_find?_eq_some hfind
  have huniq : ∀ x ∈ s.layers, x.id = id → x = l := by
    intro x hx hxid
    exact eq_of_mem_of_id_eq hnd hx hlmem (hxid.trans hlid.symm)
  have hupd : updateLayer s id p now =
      addHistoryAction
        { s with layers := (s.layers.map
            (fun x => if x.id = id then mergeLayer x p else x)) }
        { type := ActionType.update, layerId := some id,
          before := some (Snapshot.part l.toPartial),
          after := some (Snapshot.part (mergeLayer l p).toPartial) } now := by
    unfold updateLayer
    rw [hfind]
  obtain ⟨hpos, hlast, hget, _⟩ := addHistoryAction_cursor
    { s with layers := (s.layers.map
        (fun x => if x.id = id then mergeLayer x p else x)) }
    { type := ActionType.update, layerId := some id,
      before := some (Snapshot.part l.toPartial),
      after := some (Snapshot.part (mergeLayer l p).toPartial) } now hwf hb
  obtain ⟨hu1, _, _, hrr, _⟩ := undo_redo_of_cursor _ _ hpos hget hlast
  have hmid : (mergeLayer l p).id = id := by
    show p.id.getD l.id = id
    rw [hpid]
    exact hlid
  have hback : mergeLayer (mergeLayer l p) l.toPartial = l := by
    apply mergeLayer_toPartial
    rcases hrot with h | h
    · right
      show (mergeLayer l p).rotation = l.rotation
      simp [mergeLayer, h]
    · exact Or.inl h
  have hfwd : mergeLayer l (mergeLayer l p).toPartial = mergeLayer l p := by
    apply mergeLayer_toPartial
    rcases hrot with h | h
    · right
      show l.rotation = (mergeLayer l p).rotation
      simp [mergeLayer, h]
    · left
      cases hp : p.rotation with
      | some r => simp [mergeLayer, hp]
      | none =>
        show (match p.rotation with
          | some r => some r
          | none => l.rotation).isSome = true
        rw [hp]
        exact h
  have hulayers : undoLayers
      (s.layers.map (fun x => if x.id = id then mergeLayer x p else x))
      (HistoryAction.ofPre
        { type := ActionType.update, layerId := some id,
          before := some (Snapshot.part l.toPartial),
          after := some (Snapshot.part (mergeLayer l p).toPartial) } now) =
      s.layers := by
    rw [undoLayers_update_eq, List.map_map]
    have hpt : ∀ x ∈ s.layers,
        ((fun x => if x.id = id then mergeLayer x l.toPartial else x) ∘
          (fun x => if x.id = id then mergeLayer x p else x)) x
          = (fun x => x) x := by
      intro x hx
      by_cases hxid : x.id = id
      · have hxl : x = l := huniq x hx hxid
        subst hxl
        simp only [Function.comp_apply]
        rw [if_pos hxid, if_pos hmid, hback]
      · simp only [Function.comp_apply]
        rw [if_neg hxid, if_neg hxid]
    rw [List.map_congr_left hpt, List.map_id']
  have hredo : redoLayers s.layers
      (HistoryAction.ofPre
        { type := ActionType.update, layerId := some id,
          before := some (Snapshot.part l.toPartial),
          after := some (Snapshot.part (mergeLayer l p).toPartial) } now) =
      s.layers.map (fun x => if x.id = id then mergeLayer x p else x) := by
    rw [redoLayers_update_eq]
    apply List.map_congr_left
    intro x hx
    by_cases hxid : x.id = id
    · have hxl : x = l := huniq x hx hxid
      subst hxl
      rw [if_pos hxid, if_pos hxid, hfwd]
    · rw [if_neg hxid, if_neg hxid]
  constructor
  · rw [hupd, hu1, addHistoryAction_layers]
    exact hulayers
  · rw [hupd, hrr, addHistoryAction_layers]
    show redoLayers (undoLayers
        (s.layers.map (fun x => if x.id = id then mergeLayer x p else x)) _) _ = _
    rw [hulayers, hredo]

/-- Undoing a `moveLayer` restores the collection exactly; redoing
restores the moved collection exactly. -/
theorem undo_redo_moveLayer (s : CanvasState) (id : String) (pos : Pos)
    (now : Nat) (l : Layer)
    (hwf : WFHistory s) (hb : s.isBatchingActions = false)
    (hnd : (s.layers.map Layer.id).Nodup)
    (hfind : s.layers.find? (fun x => x.id = id) = some l) :
    (undo (moveLayer s id pos now)).layers = s.layers ∧
      (redo (undo (moveLayer s id pos now))).layers =
        (moveLayer s id pos now).layers := by
  have hlidb := List.find?_some hfind
  have hlid : l.id = id := of_decide_eq_true hlidb
  have hlmem : l ∈ s.layers := List.mem_of_find?_eq_some hfind
  have huniq : ∀ x ∈ s.layers, x.id = id → x = l := by
    intro x hx hxid
    exact eq_of_mem_of_id_eq hnd hx hlmem (hxid.trans hlid.symm)
  have hmv : moveLayer s id pos now =
      addHistoryAction
        { s with layers := (s.layers.map
            (fun x => if x.id = id then { x with position := pos } else x)) }
        { type := ActionType.move, layerId := some id,
          before := some (Snapshot.part { position := some l.position }),
          after := some (Snapshot.part { position := some pos }) } now := by
    unfold moveLayer
    rw [hfind]
  obtain ⟨hpos, hlast, hget, _⟩ := addHistoryAction_cursor
    { s with layers := (s.layers.map
        (fun x => if x.id = id then { x with position := pos } else x)) }
    { type := ActionType.move, layerId := some id,
      before := some (Snapshot.part { position := some l.position }),
      after := some (Snapshot.part { position := some pos }) } now hwf hb
  obtain ⟨hu1, _, _, hrr, _⟩ := undo_redo_of_cursor _ _ hpos hget hlast
  have hulayers : undoLayers
      (s.layers.map (fun x => if x.id = id then { x with position := pos } else x))
      (HistoryAction.ofPre
        { type := ActionType.move, layerId := some id,
          before := some (Snapshot.part { position := some l.position }),
          after := some (Snapshot.part { position := some pos }) } now) =
      s.layers := by
    rw [undoLayers_move_eq, List.map_map]
    have hpt : ∀ x ∈ s.layers,
        ((fun x => if x.id = id then mergeLayer x { position := some l.position }
            else x) ∘
          (fun x => if x.id = id then { x with position := pos } else x)) x
          = (fun x => x) x := by
      intro x hx
      by_cases hxid : x.id = id
      · have hxl : x = l := huniq x hx hxid
        simp only [Function.comp_apply]
        rw [if_pos hxid]
        have hid2 : ({ x with position := pos } : Layer).id = id := hxid
        rw [if_pos hid2, mergeLayer_posOnly]
        rw [hxl]
      · simp only [Function.comp_apply]
        rw [if_neg hxid, if_neg hxid]
    rw [List.map_congr_left hpt, List.map_id']
  have hredo : redoLayers s.layers
      (HistoryAction.ofPre
        { type := ActionType.move, layerId := some id,
          before := some (Snapshot.part { position := some l.position }),
          after := some (Snapshot.part { position := some pos }) } now) =
      s.layers.map (fun x => if x.id = id then { x with position := pos } else x) := by
    rw [redoLayers_move_eq]
    apply List.map_congr_left
    intro x hx
    by_cases hxid : x.id = id
    · rw [if_pos hxid, if_pos hxid, mergeLayer_posOnly]
    · rw [if_neg hxid, if_neg hxid]
  constructor
  · rw [hmv, hu1, addHistoryAction_layers]
    exact hulayers
  · rw [hmv, hrr, addHistoryAction_layers]
    show redoLayers (undoLayers
        (s.layers.map (fun x => if x.id = id then { x with position := pos } else x))
        _) _ = _
    rw [hulayers, hredo]

/-! ### C1 — undo/redo law for single-layer actions -/

/-- C1 counterexample: removing the first of two layers and undoing does
not restore the original list order — the removed layer is re-appended at
the end, so `undo` does not restore the pre-action snapshot exactly. -/
theorem C1_remove_undo_order_counterexample :
    (undo (removeLayer exState "a" 5)).layers = [exLayerB, exLayerA] ∧
      exState.layers = [exLayerA, exLayerB] ∧
      ¬ (undo (removeLayer exState "a" 5)).layers = exState.layers := by
  refine ⟨by decide, by decide, by decide⟩

/-- C1 amended: over a well-formed, non-batching store with distinct
layer ids — undoing an `add` whose timestamp id is fresh, an `update` that
does not reassign the id and does not introduce a rotation on a
rotation-less layer, or a `move`, restores the pre-action collection
exactly, and redoing then restores the post-action collection exactly;
for a `remove`, redo restores the post-action collection exactly, but
undo yields the remaining layers followed by the removed layer at the
end (order is preserved only when the removed layer was last). -/
theorem C1_single_action_undo_redo (s : CanvasState)
    (hwf : WFHistory s) (hb : s.isBatchingActions = false)
    (hnd : (s.layers.map Layer.id).Nodup) :
    (∀ spec now, (∀ l ∈ s.layers, l.id ≠ freshId now) →
      (undo (addLayer s spec now).2).layers = s.layers ∧
        (redo (undo (addLayer s spec now).2)).layers =
          (addLayer s spec now).2.layers) ∧
      (∀ id now l, s.layers.find? (fun x => x.id = id) = some l →
        (undo (removeLayer s id now)).layers =
            s.layers.filter (fun x => x.id ≠ id) ++ [l] ∧
          (redo (undo (removeLayer s id now))).layers =
            (removeLayer s id now).layers) ∧
      (∀ id p now l, s.layers.find? (fun x => x.id = id) = some l →
        p.id = none → (p.rotation = none ∨ l.rotation.isSome) →
        (undo (updateLayer s id p now)).layers = s.layers ∧
          (redo (undo (updateLayer s id p now))).layers =
            (updateLayer s id p now).layers) ∧
      (∀ id pos now l, s.layers.find? (fun x => x.id = id) = some l →
        (undo (moveLayer s id pos now)).layers = s.layers ∧
          (redo (undo (moveLayer s id pos now))).layers =
            (moveLayer s id pos now).layers) := by
  refine ⟨?_, ?_, ?_, ?_⟩
  · intro spec now hfresh
    exact undo_redo_addLayer s spec now hwf hb hfresh
  · intro id now l hfind
    exact undo_redo_removeLayer s id now l hwf hb hfind
  · intro id p now l hfind hpid hrot
    exact undo_redo_updateLayer s id p now l hwf hb hnd hfind hpid hrot
  · intro id pos now l hfind
    exact undo_redo_moveLayer s id pos now l hwf hb hnd hfind

/-- Witness for C1 at the concrete store: moving layer `"a"` and undoing
restores the collection; redoing restores the moved collection. -/
theorem C1_single_action_undo_redo_witness :
    WFHistory exState ∧ exState.isBatchingActions = false ∧
      (exState.layers.map Layer.id).Nodup ∧
      exState.layers.find? (fun x => x.id = "a") = some exLayerA ∧
      (undo (moveLayer exState "a" ⟨10, 20⟩ 3)).layers = exState.layers ∧
      (redo (undo (moveLayer exState "a" ⟨10, 20⟩ 3))).layers =
        (moveLayer exState "a" ⟨10, 20⟩ 3).layers :=
  ⟨⟨by decide, by decide, by decide⟩, rfl, by decide, by decide,
   ((C1_single_action_undo_redo exState ⟨by decide, by decide, by decide⟩ rfl
       (by decide)).2.2.2 "a" ⟨10, 20⟩ 3 exLayerA (by decide)).1,
   ((C1_single_action_undo_redo exState ⟨by decide, by decide, by decide⟩ rfl
       (by decide)).2.2.2 "a" ⟨10, 20⟩ 3 exLayerA (by decide)).2⟩

/-! ### C3 — history capacity law -/

/-- Invariant of recording from an empty history: the log is the stamped
action sequence with everything before the last `MAX_HISTORY_SIZE`
entries evicted, and the cursor is `min (count − 1) (MAX_HISTORY_SIZE − 1)`. -/
theorem recordAll_from_empty (s : CanvasState) (hh : s.history = [])
    (hi : s.historyIndex = -1) (hb : s.isBatchingActions = false)
    (acts : List (PreAction × Nat)) :
    (recordAll s acts).history =
        (acts.map stampAction).drop (acts.length - maxHistorySize) ∧
      (recordAll s acts).historyIndex =
        min ((acts.length : Int) - 1) ((maxHistorySize : Int) - 1) ∧
      (recordAll s acts).isBatchingActions = false := by
  induction acts using List.reverseRecOn with
  | nil =>
    refine ⟨?_, ?_, ?_⟩
    · show s.history = _
      rw [hh]
      rfl
    · show s.historyIndex = _
      rw [hi]
      decide
    · exact hb
  | append_singleton as a ih =>
    obtain ⟨ih1, ih2, ih3⟩ := ih
    have hstep : recordAll s (as ++ [a]) =
        addHistoryAction (recordAll s as) a.1 a.2 := by
      unfold recordAll
      exact List.foldl_concat _ _ a as
    rw [hstep, addHistoryAction_eq _ _ _ ih3]
    have hlenh : (recordAll s as).history.length =
        as.length - (as.length - maxHistorySize) := by
      rw [ih1, List.length_drop, List.length_map]
    have htn : ((recordAll s as).historyIndex + 1).toNat =
        as.length - (as.length - maxHistorySize) := by
      rw [ih2]
      simp only [maxHistorySize]
      omega
    have htake : (recordAll s as).history.take
        ((recordAll s as).historyIndex + 1).toNat = (recordAll s as).history := by
      rw [htn]
      exact List.take_of_length_le (le_of_eq hlenh)
    rw [htake]
    by_cases hc : maxHistorySize ≤ as.length
    · rw [if_pos (by
        rw [List.length_append, List.length_singleton, hlenh]
        simp only [maxHistorySize] at hc ⊢
        omega)]
      refine ⟨?_, ?_, ih3⟩
      · dsimp only
        have h1 : ((recordAll s as).history ++
            [HistoryAction.ofPre a.1 a.2]).length - maxHistorySize = 1 := by
          rw [List.length_append, List.length_singleton, hlenh]
          simp only [maxHistorySize] at hc ⊢
          omega
        rw [h1, List.drop_append_of_le_length (by
          rw [hlenh]
          simp only [maxHistorySize] at hc ⊢
          omega)]
        rw [ih1, List.drop_drop, List.map_append, List.length_append,
          List.length_singleton]
        rw [List.drop_append_of_le_length (by
          rw [List.length_map]
          simp only [maxHistorySize] at hc ⊢
          omega)]
        have h2 : as.length - maxHistorySize + 1 =
            as.length + 1 - maxHistorySize := by
          simp only [maxHistorySize] at hc ⊢
          omega
        rw [h2]
        rfl
      · dsimp only
        rw [ih2, List.length_append, List.length_singleton]
        simp only [maxHistorySize]
        push_cast
        omega
    · rw [if_neg (by
        rw [List.length_append, List.length_singleton, hlenh]
        simp only [maxHistorySize] at hc ⊢
        omega)]
      refine ⟨?_, ?_, ih3⟩
      · dsimp only
        have h0 : (as ++ [a]).length - maxHistorySize = 0 := by
          rw [List.length_append, List.length_singleton]
          simp only [maxHistorySize] at hc ⊢
          omega
        have h0' : as.length - maxHistorySize = 0 := by
          simp only [maxHistorySize] at hc ⊢
          omega
        rw [h0, List.drop_zero, ih1, h0', List.drop_zero, List.map_append]
        rfl
      · dsimp only
        rw [ih2, List.length_append, List.length_singleton]
        simp only [maxHistorySize]
        push_cast
        omega

/-- C3: recording more than `MAX_HISTORY_SIZE` actions (no undo/redo in
between) from an empty history leaves exactly the most recent
`MAX_HISTORY_SIZE` actions in order, and the cursor at index
`MAX_HISTORY_SIZE − 1`, pointing at the most recently recorded action. -/
theorem C3_capacity_law (acts : List (PreAction × Nat))
    (hlen : maxHistorySize < acts.length) :
    (recordAll (initState []) acts).history.length = maxHistorySize ∧
      (recordAll (initState []) acts).history =
        (acts.map stampAction).drop (acts.length - maxHistorySize) ∧
      (recordAll (initState []) acts).historyIndex =
        (maxHistorySize : Int) - 1 := by
  obtain ⟨h1, h2, _⟩ := recordAll_from_empty (initState []) rfl rfl rfl acts
  refine ⟨?_, h1, ?_⟩
  · rw [h1, List.length_drop, List.length_map]
    simp only [maxHistorySize] at hlen ⊢
    omega
  · rw [h2]
    simp only [maxHistorySize] at hlen ⊢
    push_cast
    omega

/-- Witness for C3 with 21 concrete recorded actions: the log keeps the
last 20 in order and the cursor sits at 19. -/
theorem C3_capacity_law_witness :
    maxHistorySize < exActs.length ∧
      (recordAll (initState []) exActs).history.length = maxHistorySize ∧
      (recordAll (initState []) exActs).history =
        (exActs.map stampAction).drop (exActs.length - maxHistorySize) ∧
      (recordAll (initState []) exActs).historyIndex =
        (maxHistorySize : Int) - 1 :=
  ⟨by decide, (C3_capacity_law exActs (by decide)).1,
   (C3_capacity_law exActs (by decide)).2.1,
   (C3_capacity_law exActs (by decide)).2.2⟩

/-! ### C10 — no generation counter: stale completions can clobber -/

/-- Inserting by zIndex adds one element. -/
theorem length_insertByZ (a : Layer) (ls : List Layer) :
    (insertByZ a ls).length = ls.length + 1 := by
  induction ls with
  | nil => rfl
  | cons b bs ih =>
    unfold insertByZ
    split
    · rfl
    · simp only [List.length_cons, ih]

/-- Sorting preserves length. -/
theorem length_sortByZ (ls : List Layer) :
    (sortByZ ls).length = ls.length := by
  induction ls with
  | nil => rfl
  | cons b bs ih =>
    show (insertByZ b (sortByZ bs)).length = bs.length + 1
    rw [length_insertByZ, ih]

/-- C10 counterexample: pass 1 (snapshot `[exLayerA]`) suspends at its
texture `await`; pass 2 (snapshot `[]`, the newest) then runs to
completion, leaving an empty stage; pass 1's late completion finally adds
its sprite.  Both passes are finished, yet the surface holds the stale
pass's sprite instead of the newest pass's empty result — nothing
discards superseded completions. -/
theorem C10_stale_completion_counterexample :
    (runTwo emptyWorld (PassCont.start [exLayerA]) (PassCont.start [])
        [true, true, false, false, true, true]).2.1 = PassCont.done ∧
      (runTwo emptyWorld (PassCont.start [exLayerA]) (PassCont.start [])
        [true, true, false, false, true, true]).2.2 = PassCont.done ∧
      (runTwo emptyWorld (PassCont.start [exLayerA]) (PassCont.start [])
        [true, true, false, false, true, true]).1.stage
        = [mkSprite 1 0 exLayerA] ∧
      (runPass 2 2 emptyWorld (PassCont.start [])).2 = PassCont.done ∧
      (runPass 2 2 emptyWorld (PassCont.start [])).1.stage = [] ∧
      ¬ ((runTwo emptyWorld (PassCont.start [exLayerA]) (PassCont.start [])
          [true, true, false, false, true, true]).1.stage
        = (runPass 2 2 emptyWorld (PassCont.start [])).1.stage) := by
  refine ⟨by decide, by decide, by decide, by decide, by decide, by decide⟩

/-- Idle steps after a pass finished change nothing. -/
theorem runPass_done (passId : Nat) (fuel : Nat) (w : World) :
    runPass passId fuel w PassCont.done = (w, PassCont.done) := by
  induction fuel with
  | zero => rfl
  | succ n ih => exact ih

/-- Running the render loop alone to completion appends exactly one
sprite per visible pending layer, numbered in order. -/
theorem runPass_loop (passId : Nat) (pending : List Layer) :
    ∀ (w : World) (ctr fuel : Nat), 2 * pending.length + 1 ≤ fuel →
    (runPass passId fuel w (PassCont.loop pending ctr)).2 = PassCont.done ∧
      (runPass passId fuel w (PassCont.loop pending ctr)).1.stage =
        w.stage ++
          (List.enumFrom ctr (pending.filter (fun l => l.visible))).map
            (fun pr => mkSprite passId pr.1 pr.2) := by
  induction pending with
  | nil =>
    intro w ctr fuel hfuel
    cases fuel with
    | zero => omega
    | succ n =>
      have hstep : runPass passId (n + 1) w (PassCont.loop [] ctr) =
          runPass passId n w PassCont.done := rfl
      rw [hstep, runPass_done]
      simp
  | cons l rest ih =>
    intro w ctr fuel hfuel
    cases fuel with
    | zero => omega
    | succ n =>
      by_cases hv : l.visible = false
      · have hstep : runPass passId (n + 1) w (PassCont.loop (l :: rest) ctr) =
            runPass passId n w (PassCont.loop rest ctr) := by
          show runPass passId n (passStep passId w (PassCont.loop (l :: rest) ctr)).1
              (passStep passId w (PassCont.loop (l :: rest) ctr)).2 =
            runPass passId n w (PassCont.loop rest ctr)
          rw [passStep, if_pos hv]
        rw [hstep]
        obtain ⟨h1, h2⟩ := ih w ctr n (by rw [List.length_cons] at hfuel; omega)
        refine ⟨h1, ?_⟩
        rw [h2, List.filter_cons_of_neg (by simp [hv])]
      · rw [Bool.not_eq_false] at hv
        by_cases hc : l.texturePath ∈ w.cache
        · have hstep : runPass passId (n + 1) w (PassCont.loop (l :: rest) ctr) =
              runPass passId n (addSpriteW passId ctr w l)
                (PassCont.loop rest (ctr + 1)) := by
            show runPass passId n
                (passStep passId w (PassCont.loop (l :: rest) ctr)).1
                (passStep passId w (PassCont.loop (l :: rest) ctr)).2 = _
            rw [passStep, if_neg (by rw [hv]; exact fun h => Bool.noConfusion h),
              if_pos hc]
          rw [hstep]
          obtain ⟨h1, h2⟩ := ih (addSpriteW passId ctr w l) (ctr + 1) n
            (by rw [List.length_cons] at hfuel; omega)
          refine ⟨h1, ?_⟩
          rw [h2]
          show (w.stage ++ [mkSprite passId ctr l]) ++ _ = _
          rw [List.append_assoc, List.filter_cons_of_pos (by exact hv),
            List.enumFrom_cons]
          rfl
        · have hstep : runPass passId (n + 1) w (PassCont.loop (l :: rest) ctr) =
              runPass passId n w (PassCont.awaiting l rest ctr) := by
            show runPass passId n
                (passStep passId w (PassCont.loop (l :: rest) ctr)).1
                (passStep passId w (PassCont.loop (l :: rest) ctr)).2 = _
            rw [passStep, if_neg (by rw [hv]; exact fun h => Bool.noConfusion h),
              if_neg hc]
          rw [hstep]
          cases n with
          | zero => rw [List.length_cons] at hfuel; omega
          | succ m =>
            have hstep2 : runPass passId (m + 1) w (PassCont.awaiting l rest ctr) =
                runPass passId m
                  (addSpriteW passId ctr
                    { w with cache := w.cache ++ [l.texturePath] } l)
                  (PassCont.loop rest (ctr + 1)) := rfl
            rw [hstep2]
            obtain ⟨h1, h2⟩ := ih
              (addSpriteW passId ctr
                { w with cache := w.cache ++ [l.texturePath] } l)
              (ctr + 1) m (by rw [List.length_cons] at hfuel; omega)
            refine ⟨h1, ?_⟩
            rw [h2]
            show (w.stage ++ [mkSprite passId ctr l]) ++ _ = _
            rw [List.append_assoc, List.filter_cons_of_pos (by exact hv),
              List.enumFrom_cons]
            rfl

/-- C10 amended: the passes carry no generation tag and stale completions
are not discarded (see the interleaving counterexample); what does hold
is the non-overlapping guarantee — a pass that runs alone to completion,
from a surface whose sprites are all tracked, leaves the stage holding
exactly one sprite per visible layer of its snapshot in ascending-zIndex
order. -/
theorem C10_single_pass_surface (passId : Nat) (w : World) (snap : List Layer)
    (htracked : ∀ sp ∈ w.stage, w.tracked.any (fun e => e.2 = sp) = true) :
    (runPass passId (2 * snap.length + 2) w (PassCont.start snap)).2
        = PassCont.done ∧
      (runPass passId (2 * snap.length + 2) w (PassCont.start snap)).1.stage =
        ((sortByZ snap).filter (fun l => l.visible)).enum.map
          (fun pr => mkSprite passId pr.1 pr.2) := by
  have hclear : w.stage.filter (fun sp => ! w.tracked.any (fun e => e.2 = sp))
      = [] := by
    apply List.filter_eq_nil_iff.mpr
    intro sp hsp
    rw [htracked sp hsp]
    exact fun h => Bool.noConfusion h
  have hstep : runPass passId (2 * snap.length + 2) w (PassCont.start snap) =
      runPass passId (2 * snap.length + 1)
        { w with
            stage := w.stage.filter
              (fun sp => ! w.tracked.any (fun e => e.2 = sp)),
            tracked := [] }
        (PassCont.loop (sortByZ snap) 0) := rfl
  rw [hstep]
  obtain ⟨h1, h2⟩ := runPass_loop passId (sortByZ snap)
    { w with
        stage := w.stage.filter (fun sp => ! w.tracked.any (fun e => e.2 = sp)),
        tracked := [] }
    0 (2 * snap.length + 1)
    (by rw [length_sortByZ])
  refine ⟨h1, ?_⟩
  rw [h2]
  show w.stage.filter (fun sp => ! w.tracked.any (fun e => e.2 = sp)) ++ _ = _
  rw [hclear, List.nil_append]
  rfl

/-- Witness for C10 amended: a lone pass over the concrete two-layer
snapshot finishes and paints both sprites in zIndex order. -/
theorem C10_single_pass_surface_witness :
    (∀ sp ∈ emptyWorld.stage,
        emptyWorld.tracked.any (fun e => e.2 = sp) = true) ∧
      (runPass 1 (2 * 2 + 2) emptyWorld
          (PassCont.start [exLayerB, exLayerA])).2 = PassCont.done ∧
      (runPass 1 (2 * 2 + 2) emptyWorld
          (PassCont.start [exLayerB, exLayerA])).1.stage =
        ((sortByZ [exLayerB, exLayerA]).filter (fun l => l.visible)).enum.map
          (fun pr => mkSprite 1 pr.1 pr.2) :=
  ⟨by decide,
   (C10_single_pass_surface 1 emptyWorld [exLayerB, exLayerA] (by decide)).1,
   (C10_single_pass_surface 1 emptyWorld [exLayerB, exLayerA] (by decide)).2⟩

end Maetopia
